import Mathlib

/-!
Verification of the SpeechWorks trial-practice engine, session lifecycle
logic and cross-view handoff protocol, shallowly embedded from the
AngularJS controllers (ActivitiesController and SessionsController).
-/

namespace SpeechWorks

/-- One prompt item of an activity word list (word, phonetic annotation,
optional position tag), as produced by getActivityWords. -/
structure TrialItem where
  word : String
  phonetic : String
  position : Option String
deriving DecidableEq, Repr

/-- The per-run trial state kept on the Activities scope:
activityWords, currentWord, currentWordIndex, currentTrial (trials
completed), totalTrials and trialsCorrect. -/
structure TrialState where
  activityWords : List TrialItem
  currentWord : Option TrialItem
  currentWordIndex : Nat
  currentTrial : Nat
  totalTrials : Nat
  trialsCorrect : Nat
deriving DecidableEq, Repr

/-- The status value the specification expects recordResponse to report
back to its caller. The JS recordResponse function exits with a bare
return statement (or falls off the end), i.e. it evaluates to undefined
on every path; the embedding therefore models its return value as an
Option RecordSignal that the source always leaves at none. -/
inductive RecordSignal where
  | alreadyComplete
  | recorded (nowComplete : Bool)
deriving DecidableEq, Repr

/-- resetActivityState: zero the trial counters and drop the current word. -/
def resetActivityState (st : TrialState) : TrialState :=
  { st with currentWordIndex := 0, currentTrial := 0, trialsCorrect := 0,
            currentWord := none }

/-- One swap step of shuffleWords: exchange positions i and j when both
are in range (the JS code always calls it in range). -/
def swapIdx {α : Type} (l : List α) (i j : Nat) : List α :=
  match l[i]?, l[j]? with
  | some a, some b => (l.set i b).set j a
  | _, _ => l

/-- The descending loop of shuffleWords: for index i from high to 1,
swap position i with position rnd i % (i+1); rnd models the stream of
Math.random draws. -/
def fyLoop {α : Type} (rnd : Nat → Nat) : Nat → List α → List α
  | 0, l => l
  | i + 1, l => fyLoop rnd i (swapIdx l (i + 1) (rnd (i + 1) % (i + 2)))

/-- shuffleWords: Fisher-Yates over the word list, starting at index
length - 1. -/
def shuffleWords {α : Type} (rnd : Nat → Nat) (l : List α) : List α :=
  fyLoop rnd (l.length - 1) l

/-- nextWord: show the word at currentWordIndex and advance the index
when both the index and the trial count are in bounds; otherwise set
currentWord to null. -/
def nextWord (st : TrialState) : TrialState :=
  if st.currentWordIndex < st.activityWords.length ∧
      st.currentTrial < st.totalTrials then
    { st with currentWord := st.activityWords[st.currentWordIndex]?,
              currentWordIndex := st.currentWordIndex + 1 }
  else
    { st with currentWord := none }

/-- startActivity: set totalTrials = min(word count, 10), shuffle, and
show the first word. -/
def startActivity (rnd : Nat → Nat) (st : TrialState) : TrialState :=
  let st1 := { st with totalTrials := min st.activityWords.length 10 }
  let st2 := { st1 with activityWords := shuffleWords rnd st1.activityWords }
  nextWord st2

/-- The flow of selectActivityClient / checkPendingActivity once a word
list is bound: fresh scope state, resetActivityState, startActivity. -/
def startTrialRun (rnd : Nat → Nat) (words : List TrialItem) : TrialState :=
  startActivity rnd (resetActivityState
    { activityWords := words, currentWord := none, currentWordIndex := 0,
      currentTrial := 0, totalTrials := 10, trialsCorrect := 0 })

/-- recordResponse(isCorrect): guarded no-op once currentTrial has
reached totalTrials; otherwise bump currentTrial (and trialsCorrect when
correct) and either advance to the next word or end the run. The second
component is the JS return value, which is undefined (none) on every
path. -/
def recordResponse (isCorrect : Bool) (st : TrialState) :
    TrialState × Option RecordSignal :=
  if st.totalTrials ≤ st.currentTrial then
    (st, none)
  else
    let st1 := { st with
      currentTrial := st.currentTrial + 1,
      trialsCorrect := if isCorrect then st.trialsCorrect + 1 else st.trialsCorrect }
    if st1.currentTrial < st1.totalTrials then
      (nextWord st1, none)
    else
      ({ st1 with currentWord := none }, none)

/-- Run a whole sequence of recordResponse calls, threading the state. -/
def runResponses (responses : List Bool) (st : TrialState) : TrialState :=
  List.foldl (fun s b => (recordResponse b s).1) st responses

/-- A client record as used by the controllers (id, name fields). -/
structure Client where
  id : Nat
  first_name : String
  last_name : String
deriving DecidableEq, Repr

/-- A therapy activity from the catalog (id, name, category). -/
structure Activity where
  id : Nat
  name : String
  category : String
deriving DecidableEq, Repr

/-- A session-activity assignment row. trials_attempted and
trials_correct may be absent (undefined in JS); activity_obj_id models
the optional nested activity object id (sa.activity.id) that
openActivityFromSession also matches on. -/
structure SessionActivity where
  id : Nat
  activity_id : Nat
  activity_obj_id : Option Nat
  trials_attempted : Option Nat
  trials_correct : Option Nat
  accuracy_percentage : Option ℚ
deriving DecidableEq, Repr

/-- A therapy session as seen by SessionsController: id, client_id,
status string, and the assignedActivities list once loaded (absent
before the per-card load completes). -/
structure TherapySession where
  id : Nat
  client_id : Nat
  status : String
  assignedActivities : Option (List SessionActivity)
deriving DecidableEq, Repr

/-- The single-slot handoff request published on
$rootScope.pendingActivity: activity, client, originating session and
(optionally) the assignment record. -/
structure PendingRequest where
  activity : Activity
  client : Option Client
  session : Option TherapySession
  sessionActivityRecord : Option SessionActivity
deriving DecidableEq, Repr

/-- attempted(assignment) as checkSessionAutoComplete and
checkSessionStatuses test it: trials_attempted must be present and
nonzero (the JS test is !sa.trials_attempted || sa.trials_attempted
=== 0 for the negation). -/
def activityAttempted (sa : SessionActivity) : Bool :=
  match sa.trials_attempted with
  | none => false
  | some n => decide (0 < n)

/-- The shared auto-completion decision of checkSessionAutoComplete and
checkSessionStatuses: status is exactly the string in_progress, the
assignedActivities list is loaded and non-empty, and every assignment
is attempted. -/
def checkSessionAutoComplete (status : String)
    (assigned : Option (List SessionActivity)) : Bool :=
  decide (status = "in_progress") &&
    (match assigned with
     | none => false
     | some l => decide (0 < l.length) && l.all activityAttempted)

/-- ASCII lowercase of one character (what JS toLowerCase does on the
ASCII status and category strings handled here). -/
def lowerChar (c : Char) : Char :=
  if 'A' ≤ c ∧ c ≤ 'Z' then Char.ofNat (c.toNat + 32) else c

/-- ASCII lowercase of a string. -/
def lowerString (s : String) : String :=
  List.asString (s.toList.map lowerChar)

/-- The status normalization inside isInProgress: lowercase and strip
underscores and whitespace (the JS regex /[_\s]/g). -/
def normalizeStatus (s : String) : String :=
  List.asString ((lowerString s).toList.filter
    (fun c => !(c = '_' || c = ' ' || c = '\t' || c = '\n' || c = '\r')))

/-- isInProgress: false on a missing/empty status, otherwise compare the
normalized status against inprogress. -/
def isInProgress (status : String) : Bool :=
  if status = "" then false
  else decide (normalizeStatus status = "inprogress")

/-- The client lookup of openActivityFromSession: search allClients by
session client id first, then the active clients list. -/
def findClient (allClients clients : List Client) (clientId : Nat) :
    Option Client :=
  match allClients.find? (fun c => c.id == clientId) with
  | some c => some c
  | none => clients.find? (fun c => c.id == clientId)

/-- The early-exit guard on a passed assignment record:
sessionActivityRecord && sessionActivityRecord.trials_attempted > 0. -/
def recordBlocks (saRec : Option SessionActivity) : Bool :=
  match saRec with
  | some r =>
      match r.trials_attempted with
      | some n => decide (0 < n)
      | none => false
  | none => false

/-- The fallback lookup of the assignment record when none was passed:
first assignedActivities entry matching the activity by activity_id or
by the nested activity object id. -/
def resolveSaRecord (saRec : Option SessionActivity)
    (session : TherapySession) (activity : Activity) :
    Option SessionActivity :=
  match saRec with
  | some r => some r
  | none =>
      match session.assignedActivities with
      | none => none
      | some l =>
          l.find? (fun sa =>
            sa.activity_id == activity.id || sa.activity_obj_id == some activity.id)

/-- openActivityFromSession: publish a pendingActivity request iff the
session is in progress, a passed assignment record is not already
attempted, and the session client resolves; otherwise the mailbox value
is returned unchanged. The result is the new mailbox content. -/
def openActivityFromSession (allClients clients : List Client)
    (mailbox : Option PendingRequest) (activity : Activity)
    (session : TherapySession) (saRec : Option SessionActivity) :
    Option PendingRequest :=
  if isInProgress session.status then
    if recordBlocks saRec then mailbox
    else
      match findClient allClients clients session.client_id with
      | none => mailbox
      | some client =>
          some { activity := activity, client := some client,
                 session := some session,
                 sessionActivityRecord := resolveSaRecord saRec session activity }
  else mailbox

/-- The ActivitiesController scope state that the handoff consumer
mutates: the loaded catalog, the shared pendingActivity slot, the UI
fields set when a run opens, and a counter of startActivity
invocations (Trial Engine starts). -/
structure ActivitiesState where
  activities : List Activity
  pendingActivity : Option PendingRequest
  selectedActivity : Option Activity
  activityClient : Option Client
  showActivitySession : Bool
  sourceSession : Option TherapySession
  sourceSessionActivityRecord : Option SessionActivity
  engineStarts : Nat
deriving DecidableEq, Repr

/-- The catalog lookup inside checkPendingActivity: first activity whose
id equals the pending request's activity id. -/
def findActivityById (acts : List Activity) (activityId : Nat) :
    Option Activity :=
  acts.find? (fun a => a.id == activityId)

/-- The state after a successful consumption in checkPendingActivity, in
source order: store the source-session context, open the activity UI,
pre-select the client, start the Trial Engine, then clear
pendingActivity. -/
def consumeState (st : ActivitiesState) (pending : PendingRequest)
    (activity : Activity) (client : Client) : ActivitiesState :=
  { st with
    sourceSession := pending.session,
    sourceSessionActivityRecord := pending.sessionActivityRecord,
    selectedActivity := some activity,
    showActivitySession := true,
    activityClient := some client,
    engineStarts := st.engineStarts + 1,
    pendingActivity := none }

/-- checkPendingActivity: with a pending request and a non-empty
catalog, resolve the activity and the client; on success consume the
slot, otherwise leave everything (the mailbox included) untouched. -/
def checkPendingActivity (st : ActivitiesState) : ActivitiesState :=
  match st.pendingActivity with
  | none => st
  | some pending =>
      if 0 < st.activities.length then
        match findActivityById st.activities pending.activity.id with
        | none => st
        | some activity =>
            match pending.client with
            | none => st
            | some client => consumeState st pending activity client
      else st

/-- The observable synchronous actions of one checkPendingActivity
invocation, used to talk about the order of the engine start and the
mailbox clear. -/
inductive SyncAction where
  | setSourceContext
  | openActivityUI
  | selectClient
  | startEngine
  | clearMailbox
  | showToast
deriving DecidableEq, Repr

/-- The sequence of synchronous actions checkPendingActivity performs on
a successful consumption, in source order (lines 847-864 of the
Activities controller): store the source context, open the UI,
pre-select the client, startActivity, clear pendingActivity, toast. -/
def checkPendingActions (st : ActivitiesState) : List SyncAction :=
  match st.pendingActivity with
  | none => []
  | some pending =>
      if 0 < st.activities.length then
        match findActivityById st.activities pending.activity.id with
        | none => []
        | some _ =>
            match pending.client with
            | none => []
            | some _ =>
                [SyncAction.setSourceContext, SyncAction.openActivityUI,
                 SyncAction.selectClient, SyncAction.startEngine,
                 SyncAction.clearMailbox, SyncAction.showToast]
      else []

/-- publish: the Sessions view overwrites the single pendingActivity
slot unconditionally. -/
def publish (req : PendingRequest) (st : ActivitiesState) : ActivitiesState :=
  { st with pendingActivity := some req }

/-- loadCatalog: the asynchronous activities load completing. -/
def loadCatalog (catalog : List Activity) (st : ActivitiesState) :
    ActivitiesState :=
  { st with activities := catalog }

/-- The ActivitiesController scope before any load completes. -/
def initialActivitiesState : ActivitiesState :=
  { activities := [], pendingActivity := none, selectedActivity := none,
    activityClient := none, showActivitySession := false,
    sourceSession := none, sourceSessionActivityRecord := none,
    engineStarts := 0 }

/-- The result record of finishActivity: the progress data (client,
category lowercased, accuracy, trial counts), whether the background
save succeeded (success toast vs the distinct Results-not-saved toast),
and the return token written to $rootScope.returnToSessionId. -/
structure FinishOutcome where
  clientId : Nat
  category : String
  accuracyPercentage : ℚ
  trialsAttempted : Nat
  trialsCorrect : Nat
  saved : Bool
  returnToSessionId : Option Nat
deriving DecidableEq, Repr

/-- finishActivity: with no bound client or zero completed trials the
view just closes (no result, no token); otherwise the accuracy
trialsCorrect / currentTrial * 100 is computed and reported, and on
both the createProgressRecord success path and its failure path the
return token is set to the originating session id (when there is one),
the failure path being tagged by saved = false. -/
def finishActivity (st : TrialState) (activityClient : Option Client)
    (selectedActivity : Activity) (sourceSession : Option TherapySession)
    (saveSucceeds : Bool) : Option FinishOutcome :=
  match activityClient with
  | none => none
  | some client =>
      if st.currentTrial = 0 then none
      else
        some { clientId := client.id,
               category := lowerString selectedActivity.category,
               accuracyPercentage :=
                 (st.trialsCorrect : ℚ) / (st.currentTrial : ℚ) * 100,
               trialsAttempted := st.currentTrial,
               trialsCorrect := st.trialsCorrect,
               saved := saveSucceeds,
               returnToSessionId := Option.map TherapySession.id sourceSession }

/-- The SessionsController watch on $rootScope.returnToSessionId: when a
(truthy) session id is present, reload the sessions and clear the slot.
Returns the slot content after the watch body and whether loadSessions
fired. -/
def consumeReturn (slot : Option Nat) : Option Nat × Bool :=
  match slot with
  | some sid => if sid = 0 then (some sid, false) else (none, true)
  | none => (none, false)

/-- The outcome of saveSession on an existing session: either the
time-window validation rejects the edit (no update request is sent, so
the stored status is untouched), or an update carrying the new status
and duration is applied. -/
inductive SaveSessionResult where
  | rejectedTimeWindow
  | updated (status : Option String) (durationMinutes : Int)
deriving DecidableEq, Repr

/-- The edit branch of saveSession. Dates are epoch milliseconds. When
the form requests in_progress and the session is not already
in_progress, the window [sessionDate, sessionDate + duration * 60 *
1000] is checked against now; outside it the save is rejected with a
validation toast and nothing is updated. The session date falls back
from the form value to the stored original to the editing session's
date (the JS chain of truthiness ors). -/
def saveSessionEdit (editingStatus : String) (editingDate : Int)
    (originalDate : Option Int) (formDate : Option Int)
    (formDuration : Int) (formStatus : String) (now : Int) :
    SaveSessionResult :=
  if formStatus = "in_progress" ∧ editingStatus ≠ "in_progress" then
    let sessionDate := formDate.getD (originalDate.getD editingDate)
    let sessionEnd := sessionDate + formDuration * 60 * 1000
    if now < sessionDate ∨ sessionEnd < now then
      SaveSessionResult.rejectedTimeWindow
    else
      SaveSessionResult.updated
        (if formStatus = "" then none else some formStatus) formDuration
  else
    SaveSessionResult.updated
      (if formStatus = "" then none else some formStatus) formDuration

/-! Helper lemmas about the trial engine. -/

theorem swapIdx_length {α : Type} (l : List α) (i j : Nat) :
    (swapIdx l i j).length = l.length := by
  unfold swapIdx
  cases h1 : l[i]? <;> cases h2 : l[j]? <;> simp

theorem fyLoop_length {α : Type} (rnd : Nat → Nat) :
    ∀ (n : Nat) (l : List α), (fyLoop rnd n l).length = l.length := by
  intro n
  induction n with
  | zero => intro l; rfl
  | succ i ih =>
      intro l
      rw [fyLoop, ih, swapIdx_length]

theorem shuffleWords_length {α : Type} (rnd : Nat → Nat) (l : List α) :
    (shuffleWords rnd l).length = l.length := by
  unfold shuffleWords
  exact fyLoop_length rnd _ l

theorem nextWord_counters (st : TrialState) :
    (nextWord st).currentTrial = st.currentTrial ∧
    (nextWord st).totalTrials = st.totalTrials ∧
    (nextWord st).trialsCorrect = st.trialsCorrect ∧
    (nextWord st).activityWords = st.activityWords := by
  unfold nextWord
  split <;> exact ⟨rfl, rfl, rfl, rfl⟩

/-- The run invariant of the specification: trialsCompleted bounded by
totalTrials and currentWordIndex bounded by the word list length. -/
def TrialInv (st : TrialState) : Prop :=
  st.currentTrial ≤ st.totalTrials ∧
  st.currentWordIndex ≤ st.activityWords.length

theorem nextWord_inv (st : TrialState) (h : TrialInv st) :
    TrialInv (nextWord st) := by
  obtain ⟨h1, h2⟩ := h
  unfold TrialInv nextWord
  split
  case isTrue hc => exact ⟨h1, hc.1⟩
  case isFalse hc => exact ⟨h1, h2⟩

theorem recordResponse_inv (b : Bool) (st : TrialState) (h : TrialInv st) :
    TrialInv (recordResponse b st).1 := by
  obtain ⟨h1, h2⟩ := h
  unfold recordResponse
  split
  case isTrue hge => exact ⟨h1, h2⟩
  case isFalse hlt =>
      have hlt2 : st.currentTrial < st.totalTrials := Nat.lt_of_not_le hlt
      dsimp only
      split
      case isTrue hmore =>
          exact nextWord_inv _ ⟨hlt2, h2⟩
      case isFalse hdone =>
          exact ⟨hlt2, h2⟩

theorem startTrialRun_inv (rnd : Nat → Nat) (words : List TrialItem) :
    TrialInv (startTrialRun rnd words) := by
  unfold startTrialRun startActivity resetActivityState
  exact nextWord_inv _ ⟨Nat.zero_le _, Nat.zero_le _⟩

theorem runResponses_inv (responses : List Bool) (st : TrialState)
    (h : TrialInv st) : TrialInv (runResponses responses st) := by
  induction responses generalizing st with
  | nil => exact h
  | cons b bs ih =>
      have : runResponses (b :: bs) st = runResponses bs (recordResponse b st).1 := rfl
      rw [this]
      exact ih _ (recordResponse_inv b st h)

theorem recordResponse_complete_eq (b : Bool) (st : TrialState)
    (h : st.totalTrials ≤ st.currentTrial) :
    recordResponse b st = (st, none) := by
  unfold recordResponse
  rw [if_pos h]

/-- C4: starting a trial run sets totalTrials to min(item count, 10);
with zero items the engine lands in the defined empty terminal state:
no current prompt, totalTrials = 0, no trials recorded. -/
theorem startTrialRun_totalTrials_min (rnd : Nat → Nat)
    (words : List TrialItem) :
    (startTrialRun rnd words).totalTrials = min words.length 10 ∧
    (startTrialRun rnd ([] : List TrialItem)).currentWord = none ∧
    (startTrialRun rnd ([] : List TrialItem)).totalTrials = 0 ∧
    (startTrialRun rnd ([] : List TrialItem)).currentTrial = 0 := by
  refine ⟨?_, rfl, rfl, rfl⟩
  unfold startTrialRun startActivity resetActivityState
  rw [(nextWord_counters _).2.1]

/-- C5: after any sequence of recordResponse calls on a started run,
trialsCompleted never exceeds totalTrials and currentWordIndex never
exceeds the word list length; a recordResponse call made once
trialsCompleted has reached totalTrials leaves the whole state (in
particular trialsCompleted and trialsCorrect) unchanged. -/
theorem trials_bounded_invariant (rnd : Nat → Nat)
    (words : List TrialItem) (responses : List Bool) :
    (runResponses responses (startTrialRun rnd words)).currentTrial ≤
      (runResponses responses (startTrialRun rnd words)).totalTrials ∧
    (runResponses responses (startTrialRun rnd words)).currentWordIndex ≤
      (runResponses responses (startTrialRun rnd words)).activityWords.length ∧
    ∀ (b : Bool) (st : TrialState), st.totalTrials ≤ st.currentTrial →
      (recordResponse b st).1 = st := by
  obtain ⟨h1, h2⟩ := runResponses_inv responses _ (startTrialRun_inv rnd words)
  refine ⟨h1, h2, ?_⟩
  intro b st h
  rw [recordResponse_complete_eq b st h]

/-- C5 witness: a concrete one-item run, one response recorded; the
bounds hold and a further call at the bound changes nothing. -/
theorem trials_bounded_invariant_witness :
    (runResponses [true] (startTrialRun (fun _ => 0)
        [{ word := "sun", phonetic := "s", position := none }])).currentTrial ≤
      (runResponses [true] (startTrialRun (fun _ => 0)
        [{ word := "sun", phonetic := "s", position := none }])).totalTrials ∧
    (recordResponse false
        { activityWords := [], currentWord := none, currentWordIndex := 0,
          currentTrial := 3, totalTrials := 3, trialsCorrect := 2 }).1 =
      { activityWords := [], currentWord := none, currentWordIndex := 0,
        currentTrial := 3, totalTrials := 3, trialsCorrect := 2 } := by
  constructor
  · exact (trials_bounded_invariant (fun _ => 0)
      [{ word := "sun", phonetic := "s", position := none }] [true]).1
  · exact (trials_bounded_invariant (fun _ => 0)
      [{ word := "sun", phonetic := "s", position := none }] [true]).2.2 false _
      (by decide)

/-- C9 counterexample: at a concrete already-complete run state the
recordResponse call is a state no-op but its return value is none (JS
undefined) — in particular it is not a status indicating already
complete, refuting the claimed return-value signal. -/
theorem recordResponse_returns_no_status :
    (recordResponse true
        { activityWords := [], currentWord := none, currentWordIndex := 0,
          currentTrial := 1, totalTrials := 1, trialsCorrect := 1 }).1 =
      { activityWords := [], currentWord := none, currentWordIndex := 0,
        currentTrial := 1, totalTrials := 1, trialsCorrect := 1 } ∧
    (recordResponse true
        { activityWords := [], currentWord := none, currentWordIndex := 0,
          currentTrial := 1, totalTrials := 1, trialsCorrect := 1 }).2 = none ∧
    ¬ (recordResponse true
        { activityWords := [], currentWord := none, currentWordIndex := 0,
          currentTrial := 1, totalTrials := 1, trialsCorrect := 1 }).2 =
        some RecordSignal.alreadyComplete := by
  refine ⟨rfl, rfl, ?_⟩
  intro h
  exact Option.noConfusion h

/-- C9 amended: on an already-complete run (trialsCompleted ≥
totalTrials) recordResponse is an explicit no-op — the state is
returned unchanged — but no status value is returned to the caller (the
JS function evaluates to undefined on every path). -/
theorem recordResponse_complete_noop (b : Bool) (st : TrialState)
    (h : st.totalTrials ≤ st.currentTrial) :
    recordResponse b st = (st, none) :=
  recordResponse_complete_eq b st h

/-- C9 witness: the no-op guard at a concrete complete state. -/
theorem recordResponse_complete_noop_witness :
    recordResponse false
        { activityWords := [], currentWord := none, currentWordIndex := 0,
          currentTrial := 2, totalTrials := 2, trialsCorrect := 0 } =
      ({ activityWords := [], currentWord := none, currentWordIndex := 0,
         currentTrial := 2, totalTrials := 2, trialsCorrect := 0 }, none) :=
  recordResponse_complete_noop false _ (by decide)

/-- C6: with at least one completed trial, finishActivity reports the
accuracy trialsCorrect / trialsCompleted * 100 — in particular 100 when
every completed trial was correct — and the result record carries
trialsAttempted = trialsCompleted and trialsCorrect; with zero completed
trials the function returns before the accuracy quotient is ever
formed. -/
theorem finishActivity_accuracy_result (st : TrialState) (c : Client)
    (act : Activity) (src : Option TherapySession) (ok : Bool)
    (h : 0 < st.currentTrial) :
    (∃ o : FinishOutcome,
        finishActivity st (some c) act src ok = some o ∧
        o.accuracyPercentage = (st.trialsCorrect : ℚ) / (st.currentTrial : ℚ) * 100 ∧
        o.trialsAttempted = st.currentTrial ∧
        o.trialsCorrect = st.trialsCorrect ∧
        (st.trialsCorrect = st.currentTrial → o.accuracyPercentage = 100)) ∧
    ∀ st2 : TrialState, st2.currentTrial = 0 →
      finishActivity st2 (some c) act src ok = none := by
  have heq : finishActivity st (some c) act src ok =
      some { clientId := c.id, category := lowerString act.category,
             accuracyPercentage := (st.trialsCorrect : ℚ) / (st.currentTrial : ℚ) * 100,
             trialsAttempted := st.currentTrial, trialsCorrect := st.trialsCorrect,
             saved := ok,
             returnToSessionId := Option.map TherapySession.id src } := by
    unfold finishActivity
    dsimp only
    rw [if_neg (Nat.pos_iff_ne_zero.mp h)]
  constructor
  · refine ⟨_, heq, rfl, rfl, rfl, ?_⟩
    intro hall
    have hne : (st.currentTrial : ℚ) ≠ 0 := by
      exact_mod_cast Nat.pos_iff_ne_zero.mp h
    dsimp only
    rw [hall]
    field_simp
  · intro st2 h2
    unfold finishActivity
    dsimp only
    rw [if_pos h2]

/-- C6 witness: 7 correct of 10 completed trials yields accuracy 70 in
the finish record, together with the counts. -/
theorem finishActivity_accuracy_result_witness :
    ∃ o : FinishOutcome,
      finishActivity
          { activityWords := [], currentWord := none, currentWordIndex := 10,
            currentTrial := 10, totalTrials := 10, trialsCorrect := 7 }
          (some { id := 4, first_name := "Ada", last_name := "Lee" })
          { id := 1, name := "S Sound Practice", category := "ARTICULATION" }
          none true = some o ∧
      o.accuracyPercentage = 70 ∧ o.trialsAttempted = 10 ∧ o.trialsCorrect = 7 := by
  obtain ⟨o, ho, hacc, hatt, hcor, _⟩ :=
    (finishActivity_accuracy_result
      { activityWords := [], currentWord := none, currentWordIndex := 10,
        currentTrial := 10, totalTrials := 10, trialsCorrect := 7 }
      { id := 4, first_name := "Ada", last_name := "Lee" }
      { id := 1, name := "S Sound Practice", category := "ARTICULATION" }
      none true (by decide)).1
  refine ⟨o, ho, ?_, hatt, hcor⟩
  rw [hacc]
  norm_num

/-- C7: for a run that originated from a session and recorded at least
one trial, finishing publishes the return token (the originating
session id) on the save-success path and on the save-failure path alike,
the failure outcome being tagged saved = false while the local result is
still reported; the session view's watch then consumes the token
clear-on-read and reloads its data. -/
theorem returnToken_published_both_paths (st : TrialState) (c : Client)
    (act : Activity) (s : TherapySession) (h : 0 < st.currentTrial)
    (hid : 0 < s.id) :
    (∃ o : FinishOutcome,
        finishActivity st (some c) act (some s) true = some o ∧
        o.returnToSessionId = some s.id ∧ o.saved = true ∧
        o.trialsAttempted = st.currentTrial ∧ o.trialsCorrect = st.trialsCorrect) ∧
    (∃ o : FinishOutcome,
        finishActivity st (some c) act (some s) false = some o ∧
        o.returnToSessionId = some s.id ∧ o.saved = false ∧
        o.trialsAttempted = st.currentTrial ∧ o.trialsCorrect = st.trialsCorrect) ∧
    consumeReturn (some s.id) = (none, true) := by
  have hz : st.currentTrial ≠ 0 := Nat.pos_iff_ne_zero.mp h
  have heq : ∀ ok : Bool, finishActivity st (some c) act (some s) ok =
      some { clientId := c.id, category := lowerString act.category,
             accuracyPercentage := (st.trialsCorrect : ℚ) / (st.currentTrial : ℚ) * 100,
             trialsAttempted := st.currentTrial, trialsCorrect := st.trialsCorrect,
             saved := ok, returnToSessionId := some s.id } := by
    intro ok
    unfold finishActivity
    dsimp only
    rw [if_neg hz]
    rfl
  refine ⟨⟨_, heq true, rfl, rfl, rfl, rfl⟩, ⟨_, heq false, rfl, rfl, rfl, rfl⟩, ?_⟩
  unfold consumeReturn
  dsimp only
  rw [if_neg (Nat.pos_iff_ne_zero.mp hid)]

/-- C7 witness: a concrete session-originated run; both save outcomes
carry the return token for session 5 and the watch consumes it. -/
theorem returnToken_published_both_paths_witness :
    (∃ o : FinishOutcome,
        finishActivity
            { activityWords := [], currentWord := none, currentWordIndex := 3,
              currentTrial := 3, totalTrials := 3, trialsCorrect := 2 }
            (some { id := 4, first_name := "Ada", last_name := "Lee" })
            { id := 2, name := "R Sound Practice", category := "ARTICULATION" }
            (some { id := 5, client_id := 4, status := "in_progress",
                    assignedActivities := none }) false = some o ∧
        o.returnToSessionId = some 5 ∧ o.saved = false) ∧
    consumeReturn (some 5) = (none, true) := by
  obtain ⟨_, hfail, hcons⟩ :=
    returnToken_published_both_paths
      { activityWords := [], currentWord := none, currentWordIndex := 3,
        currentTrial := 3, totalTrials := 3, trialsCorrect := 2 }
      { id := 4, first_name := "Ada", last_name := "Lee" }
      { id := 2, name := "R Sound Practice", category := "ARTICULATION" }
      { id := 5, client_id := 4, status := "in_progress",
        assignedActivities := none }
      (by decide) (by decide)
  obtain ⟨o, ho, htok, hsaved, _, _⟩ := hfail
  exact ⟨⟨o, ho, htok, hsaved⟩, hcons⟩

theorem activityAttempted_iff (sa : SessionActivity) :
    activityAttempted sa = true ↔
      ∃ n, sa.trials_attempted = some n ∧ 0 < n := by
  unfold activityAttempted
  cases h : sa.trials_attempted with
  | none => simp [h]
  | some n => simp [h]

/-- C2: the auto-completion decision shared by checkSessionAutoComplete
and checkSessionStatuses is true exactly when the session status is
in_progress, the assignment list is loaded and non-empty, and every
assignment has a present, positive trials_attempted; it is in
particular false for an empty list and false when any assignment has
trials_attempted missing or zero. -/
theorem evaluateAutoCompletion_iff (status : String)
    (assigned : Option (List SessionActivity)) :
    checkSessionAutoComplete status assigned = true ↔
      status = "in_progress" ∧
        ∃ l, assigned = some l ∧ l ≠ [] ∧
          ∀ sa ∈ l, ∃ n, sa.trials_attempted = some n ∧ 0 < n := by
  cases assigned with
  | none => simp [checkSessionAutoComplete]
  | some l =>
      simp [checkSessionAutoComplete, List.all_eq_true, activityAttempted_iff,
        List.length_pos]

/-- C3: on editing an existing session whose status is not in_progress,
requesting the in_progress status is gated on the time window
[sessionDate, sessionDate + duration * 60 * 1000]: outside the window
the save is rejected (no update is sent, the stored status stays as it
was), inside it the update carrying in_progress is applied. -/
theorem statusChange_time_window_gate (editingStatus : String)
    (editingDate : Int) (originalDate formDate : Option Int)
    (dur now : Int) (hne : editingStatus ≠ "in_progress") :
    (now < Option.getD formDate (Option.getD originalDate editingDate) ∨
        Option.getD formDate (Option.getD originalDate editingDate) +
          dur * 60 * 1000 < now →
      saveSessionEdit editingStatus editingDate originalDate formDate dur
          "in_progress" now = SaveSessionResult.rejectedTimeWindow) ∧
    (Option.getD formDate (Option.getD originalDate editingDate) ≤ now →
      now ≤ Option.getD formDate (Option.getD originalDate editingDate) +
          dur * 60 * 1000 →
      saveSessionEdit editingStatus editingDate originalDate formDate dur
          "in_progress" now =
        SaveSessionResult.updated (some "in_progress") dur) := by
  constructor
  · intro hout
    unfold saveSessionEdit
    rw [if_pos ⟨rfl, hne⟩]
    dsimp only
    rw [if_pos hout]
  · intro hlo hhi
    unfold saveSessionEdit
    rw [if_pos ⟨rfl, hne⟩]
    dsimp only
    rw [if_neg (by push_neg; exact ⟨hlo, hhi⟩)]
    rfl

/-- C3 witness: a session scheduled at instant 0 with duration 30
minutes; the request at T+10 minutes is accepted, the request at T+40
minutes is rejected with the time-window error. -/
theorem statusChange_time_window_gate_witness :
    saveSessionEdit "scheduled" 0 none none 30 "in_progress" 600000 =
      SaveSessionResult.updated (some "in_progress") 30 ∧
    saveSessionEdit "scheduled" 0 none none 30 "in_progress" 2400000 =
      SaveSessionResult.rejectedTimeWindow := by
  constructor
  · exact (statusChange_time_window_gate "scheduled" 0 none none 30 600000
      (by decide)).2 (by decide) (by decide)
  · exact (statusChange_time_window_gate "scheduled" 0 none none 30 2400000
      (by decide)).1 (by decide)

/-! Helper lemmas and concrete fixtures for the handoff protocol. -/

theorem checkPending_no_request (st : ActivitiesState)
    (h : st.pendingActivity = none) : checkPendingActivity st = st := by
  unfold checkPendingActivity
  rw [h]

theorem checkPending_iterate_no_request (st : ActivitiesState)
    (h : st.pendingActivity = none) (k : Nat) :
    checkPendingActivity^[k] st = st := by
  induction k with
  | zero => rfl
  | succ n ih =>
      rw [Function.iterate_succ_apply, checkPending_no_request st h, ih]

theorem checkPending_consumes (st : ActivitiesState) (p : PendingRequest)
    (a : Activity) (c : Client) (hp : st.pendingActivity = some p)
    (hf : findActivityById st.activities p.activity.id = some a)
    (hc : p.client = some c) :
    checkPendingActivity st = consumeState st p a c := by
  have hf2 : st.activities.find? (fun x => x.id == p.activity.id) = some a := hf
  have hmem : a ∈ st.activities := List.mem_of_find?_eq_some hf2
  have hlen : 0 < st.activities.length :=
    List.length_pos.mpr (List.ne_nil_of_mem hmem)
  unfold checkPendingActivity
  rw [hp]
  dsimp only
  rw [if_pos hlen, hf, hc]

/-- A concrete client used by the handoff fixtures. -/
def clientA : Client := { id := 9, first_name := "Ada", last_name := "Lee" }

/-- A concrete catalog activity used by the handoff fixtures. -/
def activityA : Activity :=
  { id := 3, name := "L Sound Practice - All Positions",
    category := "ARTICULATION" }

/-- A concrete in-progress session used by the handoff fixtures. -/
def sessionA : TherapySession :=
  { id := 5, client_id := 9, status := "in_progress",
    assignedActivities := some [] }

/-- A concrete handoff request for activityA and clientA. -/
def requestA : PendingRequest :=
  { activity := activityA, client := some clientA, session := some sessionA,
    sessionActivityRecord := none }

/-- The consumer state with the catalog loaded and requestA pending. -/
def consumableState : ActivitiesState :=
  { initialActivitiesState with activities := [activityA],
                                pendingActivity := some requestA }

/-- C1 counterexample: at a concrete consumable state the synchronous
body of checkPendingActivity starts the Trial Engine strictly before it
clears the mailbox (the clear is the next-to-last action), so the
claimed clear-before-start ordering is false, even though the
invocation does consume the request and start the engine exactly
once. -/
theorem checkPending_clear_not_before_start :
    SyncAction.startEngine ∈ checkPendingActions consumableState ∧
    SyncAction.clearMailbox ∈ checkPendingActions consumableState ∧
    List.findIdx (fun a => a == SyncAction.startEngine)
        (checkPendingActions consumableState) <
      List.findIdx (fun a => a == SyncAction.clearMailbox)
        (checkPendingActions consumableState) ∧
    ¬ (List.findIdx (fun a => a == SyncAction.clearMailbox)
        (checkPendingActions consumableState) <
       List.findIdx (fun a => a == SyncAction.startEngine)
        (checkPendingActions consumableState)) ∧
    (checkPendingActivity consumableState).pendingActivity = none ∧
    (checkPendingActivity consumableState).engineStarts =
      consumableState.engineStarts + 1 := by
  decide

/-- C1 amended: a request published before the catalog load is ignored
by any check running before the load; once the catalog (containing the
referenced activity, with a client on the request) is loaded, any
positive number of checkPendingActivity invocations — the post-load
check, the four delayed retries and the reactive watch all call this
same function — yields exactly one Trial Engine start: the first
invocation consumes the request and clears the mailbox within the same
atomic run-to-completion step (clearing just after starting the
engine), and every later invocation observes an empty mailbox and
changes nothing. -/
theorem handoff_consumed_exactly_once (req : PendingRequest)
    (catalog : List Activity) (a : Activity) (c : Client) (k : Nat)
    (hf : findActivityById catalog req.activity.id = some a)
    (hc : req.client = some c) (hk : 1 ≤ k) :
    checkPendingActivity (publish req initialActivitiesState) =
      publish req initialActivitiesState ∧
    (checkPendingActivity^[k]
        (loadCatalog catalog (publish req initialActivitiesState))).engineStarts = 1 ∧
    (checkPendingActivity^[k]
        (loadCatalog catalog (publish req initialActivitiesState))).pendingActivity = none ∧
    checkPendingActivity (checkPendingActivity^[k]
        (loadCatalog catalog (publish req initialActivitiesState))) =
      checkPendingActivity^[k]
        (loadCatalog catalog (publish req initialActivitiesState)) := by
  obtain ⟨j, rfl⟩ : ∃ j, k = j + 1 :=
    ⟨k - 1, (Nat.succ_pred_eq_of_pos hk).symm⟩
  have h1 : checkPendingActivity
      (loadCatalog catalog (publish req initialActivitiesState)) =
      consumeState (loadCatalog catalog (publish req initialActivitiesState))
        req a c :=
    checkPending_consumes _ req a c rfl hf hc
  have h2 : checkPendingActivity^[j + 1]
      (loadCatalog catalog (publish req initialActivitiesState)) =
      consumeState (loadCatalog catalog (publish req initialActivitiesState))
        req a c := by
    rw [Function.iterate_succ_apply, h1,
      checkPending_iterate_no_request _ rfl j]
  refine ⟨rfl, ?_, ?_, ?_⟩
  · rw [h2]
    rfl
  · rw [h2]
    rfl
  · rw [h2]
    exact checkPending_no_request _ rfl

/-- C1 witness: the concrete request published before the load, the
catalog then loaded, and two post-load checks: one engine start, empty
mailbox. -/
theorem handoff_consumed_exactly_once_witness :
    checkPendingActivity (publish requestA initialActivitiesState) =
      publish requestA initialActivitiesState ∧
    (checkPendingActivity^[2]
        (loadCatalog [activityA] (publish requestA initialActivitiesState))).engineStarts = 1 ∧
    (checkPendingActivity^[2]
        (loadCatalog [activityA] (publish requestA initialActivitiesState))).pendingActivity = none := by
  obtain ⟨w1, w2, w3, _⟩ :=
    handoff_consumed_exactly_once requestA [activityA] activityA clientA 2
      (by decide) rfl (by decide)
  exact ⟨w1, w2, w3⟩

/-- C8: a checkPendingActivity attempt consumes and clears the pending
slot iff a request is present, the loaded catalog resolves the
referenced activity, and the request carries a client; whenever the
activity or the client cannot be resolved (or nothing is pending) the
whole state — the mailbox included — is left untouched, so a later
retry against fully loaded data can still succeed. -/
theorem tryConsume_consumes_iff_ready (st : ActivitiesState) :
    (st.pendingActivity = none → checkPendingActivity st = st) ∧
    ∀ p : PendingRequest, st.pendingActivity = some p →
      ((∃ a, findActivityById st.activities p.activity.id = some a) ∧
          (∃ c, p.client = some c) →
        (checkPendingActivity st).pendingActivity = none ∧
        (checkPendingActivity st).engineStarts = st.engineStarts + 1) ∧
      (¬ ((∃ a, findActivityById st.activities p.activity.id = some a) ∧
          (∃ c, p.client = some c)) →
        checkPendingActivity st = st) := by
  refine ⟨fun h => checkPending_no_request st h, ?_⟩
  intro p hp
  constructor
  · rintro ⟨⟨a, hF⟩, ⟨c, hC⟩⟩
    rw [checkPending_consumes st p a c hp hF hC]
    exact ⟨rfl, rfl⟩
  · intro hneg
    unfold checkPendingActivity
    rw [hp]
    dsimp only
    by_cases hlen : 0 < st.activities.length
    · rw [if_pos hlen]
      cases hF : findActivityById st.activities p.activity.id with
      | none => rfl
      | some a =>
          cases hC : p.client with
          | none => rfl
          | some c => exact absurd ⟨⟨a, hF⟩, ⟨c, hC⟩⟩ hneg
    · rw [if_neg hlen]

/-- C8 witness: the ready state consumes and clears; the same request
before the catalog load leaves the state untouched. -/
theorem tryConsume_consumes_iff_ready_witness :
    (checkPendingActivity consumableState).pendingActivity = none ∧
    checkPendingActivity (publish requestA initialActivitiesState) =
      publish requestA initialActivitiesState := by
  constructor
  · exact ((tryConsume_consumes_iff_ready consumableState).2 requestA rfl).1
      ⟨⟨activityA, by decide⟩, ⟨clientA, rfl⟩⟩ |>.1
  · refine ((tryConsume_consumes_iff_ready
        (publish requestA initialActivitiesState)).2 requestA rfl).2 ?_
    rintro ⟨⟨a, ha⟩, -⟩
    exact Option.noConfusion ha

/-- An assignment of activityA that already carries attempted trials. -/
def attemptedRec : SessionActivity :=
  { id := 21, activity_id := 3, activity_obj_id := none,
    trials_attempted := some 8, trials_correct := some 6,
    accuracy_percentage := some 75 }

/-- An in-progress session whose only assignment is attemptedRec. -/
def sessionAttempted : TherapySession :=
  { id := 5, client_id := 9, status := "in_progress",
    assignedActivities := some [attemptedRec] }

/-- C10 counterexample: when no assignment record is passed,
openActivityFromSession looks the record up from the session's
assignment list without checking its trials_attempted, so it publishes
a handoff request for an assignment with trials_attempted = 8 > 0 —
where the claim says no request should be published. -/
theorem openActivity_publishes_attempted_assignment :
    openActivityFromSession [clientA] [] none activityA sessionAttempted
        none =
      some { activity := activityA, client := some clientA,
             session := some sessionAttempted,
             sessionActivityRecord := some attemptedRec } ∧
    attemptedRec.trials_attempted = some 8 := by
  constructor
  · decide
  · rfl

/-- C10 amended: openActivityFromSession publishes a handoff request
only when the session's status normalizes to in-progress and the
session's client resolves, and — when an assignment record is passed as
an argument — only if that record's trials_attempted is missing or
zero; in every rejected case the mailbox is returned unchanged. When no
record is passed, a matching assignment is looked up solely to be
embedded in the request, without rechecking trials_attempted (the
behavior the counterexample exhibits). -/
theorem openActivityFromSession_guards (allClients clients : List Client)
    (mailbox : Option PendingRequest) (activity : Activity)
    (session : TherapySession) (saRec : Option SessionActivity) :
    (isInProgress session.status = false →
       openActivityFromSession allClients clients mailbox activity session
         saRec = mailbox) ∧
    (recordBlocks saRec = true →
       openActivityFromSession allClients clients mailbox activity session
         saRec = mailbox) ∧
    (findClient allClients clients session.client_id = none →
       openActivityFromSession allClients clients mailbox activity session
         saRec = mailbox) ∧
    (∀ c, isInProgress session.status = true → recordBlocks saRec = false →
       findClient allClients clients session.client_id = some c →
       openActivityFromSession allClients clients mailbox activity session
           saRec =
         some { activity := activity, client := some c,
                session := some session,
                sessionActivityRecord :=
                  resolveSaRecord saRec session activity }) ∧
    (∀ r : SessionActivity, recordBlocks (some r) = true ↔
       ∃ n, r.trials_attempted = some n ∧ 0 < n) := by
  refine ⟨?_, ?_, ?_, ?_, ?_⟩
  · intro h
    simp [openActivityFromSession, h]
  · intro h
    simp [openActivityFromSession, h]
  · intro h
    simp [openActivityFromSession, h]
  · intro c h1 h2 h3
    simp [openActivityFromSession, h1, h2, h3]
  · intro r
    unfold recordBlocks
    cases h : r.trials_attempted with
    | none => simp [h]
    | some n => simp [h]

/-- C10 witness: a call that passes the already-attempted record is
rejected and leaves the empty mailbox empty. -/
theorem openActivityFromSession_guards_witness :
    openActivityFromSession [clientA] [] none activityA sessionAttempted
        (some attemptedRec) = none :=
  (openActivityFromSession_guards [clientA] [] none activityA
      sessionAttempted (some attemptedRec)).2.1 (by decide)

end SpeechWorks
